import Mathlib

/-!
# Verification of the fama room & key lifecycle engine

Shallow embedding of the server-side room / key-ledger / messaging core of
the fama backend (`backend/socketio_handlers/{connection,rooms,key_rotation,messages}.py`
together with the persistent data model of `backend/models.py`), and proofs
about the behaviour of its event handlers.

Conventions of the embedding:
* Database rows are Lean structures mirroring the SQLAlchemy models; the
  database is a record of lists of rows.  Timestamps are a logical clock
  (`DB.now`), bumped once per handler invocation that stamps anything.
* Python dict payloads become request structures whose fields are `Option`s
  where the handler uses `data.get`; Python truthiness of ints and strings
  is modelled by `truthyNat` / `truthyStr` (`0`, `""`, `None` are falsy).
* `connected_users` is an insertion-ordered association list (Python dicts
  preserve insertion order), and socket.io room membership is the list of
  `(session id, room id)` pairs `ServerState.subs`.
* `emit` calls become elements of the returned `List Emit`; targeting
  (caller / specific sid / socket.io room) is recorded in `Emit.target` and
  resolved against a subscription list by `deliveredSids`.
* A `db.session.commit()` that would violate a database constraint
  (the `(room_id, user_id, key_version)` unique constraint on
  `symmetric_keys`, the composite primary key of `room_participants`, or
  the NOT NULL constraint on `symmetric_keys.room_id` when a room row is
  deleted while the `SymmetricKey.room` relationship carries no delete
  cascade) is modelled by an explicit guard; the failing branch returns the
  pre-transaction state and the handler's `except` branch error event,
  exactly like the `db.session.rollback()` in the source.
-/

namespace Fama

/-- Python truthiness of an optional integer field (`None` and `0` are falsy). -/
def truthyNat : Option Nat → Bool
  | none => false
  | some n => n != 0

/-- Python truthiness of an optional string field (`None` and `""` are falsy). -/
def truthyStr : Option String → Bool
  | none => false
  | some s => s != ""

/-- Row of the `users` table (models.py `User`): id, unique username, ML-KEM public key. -/
structure User where
  id : Nat
  username : String
  public_key : String
deriving Repr, DecidableEq

/-- Row of the `rooms` table (models.py `Room`) together with its `room_participants`
association rows, kept as the ordered list of participant user ids. -/
structure Room where
  id : Nat
  name : Option String
  is_group : Bool
  current_key_version : Nat
  rotation_pending : Bool
  participants : List Nat
deriving Repr, DecidableEq

/-- Row of the `symmetric_keys` table (models.py `SymmetricKey`): the key ledger. -/
structure SymmetricKey where
  room_id : Nat
  user_id : Nat
  key_version : Nat
  encrypted_key : String
  revoked_at : Option Nat
deriving Repr, DecidableEq

/-- Row of the `messages` table (models.py `Message`).  `sender_id = none` marks a
system message.  `created_at` is the logical server clock at append time. -/
structure Message where
  id : Nat
  room_id : Nat
  sender_id : Option Nat
  message_type : String
  encrypted_content : String
  iv : String
  key_version : Nat
  created_at : Nat
deriving Repr, DecidableEq

/-- The attribute names the `Message` model actually defines
(models.py lines 103-126).  `handle_get_messages` performs the dynamic
attribute accesses `Message.timestamp` and `msg.tag`; whether they resolve
is exactly membership in this list. -/
def messageModelAttrs : List String :=
  ["id", "room_id", "sender_id", "message_type",
   "encrypted_content", "iv", "key_version", "created_at"]

/-- The relational store: one list per table, id counters, logical clock. -/
structure DB where
  users : List User
  rooms : List Room
  sym_keys : List SymmetricKey
  messages : List Message
  next_room_id : Nat
  next_message_id : Nat
  now : Nat
deriving Repr, DecidableEq

/-- Value of the in-memory `connected_users` dict (connection.py line 13). -/
structure ConnUser where
  user_id : Nat
  username : String
deriving Repr, DecidableEq

/-- Gateway state: database plus the session registry and the socket.io
room subscriptions. -/
structure ServerState where
  db : DB
  connected_users : List (String × ConnUser)
  subs : List (String × Nat)
deriving Repr, DecidableEq

/-- Model of `db.session.get(User, uid)`. -/
def lookupUser (db : DB) (uid : Nat) : Option User :=
  db.users.find? (fun u => u.id == uid)

/-- Model of `db.session.get(Room, rid)`. -/
def lookupRoom (db : DB) (rid : Nat) : Option Room :=
  db.rooms.find? (fun r => r.id == rid)

/-- Model of `connected_users[sid]` (with the `sid in connected_users` check). -/
def connLookup (st : ServerState) (sid : String) : Option ConnUser :=
  (st.connected_users.find? (fun p => p.1 == sid)).map (fun p => p.2)

/-- Model of `connected_users[sid] = user_data`: ordered dict upsert. -/
def dictInsert (l : List (String × ConnUser)) (sid : String) (cu : ConnUser) :
    List (String × ConnUser) :=
  if l.any (fun p => p.1 == sid) then
    l.map (fun p => if p.1 == sid then (sid, cu) else p)
  else l ++ [(sid, cu)]

/-- socket.io `join_room`: idempotent subscription. -/
def addSub (subs : List (String × Nat)) (sid : String) (rid : Nat) :
    List (String × Nat) :=
  if subs.contains (sid, rid) then subs else subs ++ [(sid, rid)]

/-- socket.io `leave_room`: drop this session's subscription to the room. -/
def removeSub (subs : List (String × Nat)) (sid : String) (rid : Nat) :
    List (String × Nat) :=
  subs.filter (fun p => !(p.1 == sid && p.2 == rid))

/-- Base64 alphabet (RFC 4648), as used by Python's `base64.b64encode`. -/
def b64Alphabet : List Char :=
  "ABCDEFGHIJKLMNOPQRSTUVWXYZabcdefghijklmnopqrstuvwxyz0123456789+/".toList

def b64Char (n : Nat) : Char := b64Alphabet.getD n 'A'

/-- Standard base64 of a byte list, with `=` padding. -/
def b64EncodeBytes : List Nat → String
  | [] => ""
  | [a] =>
      String.mk [b64Char (a / 4), b64Char (a % 4 * 16), '=', '=']
  | [a, b] =>
      String.mk [b64Char (a / 4), b64Char (a % 4 * 16 + b / 16),
                 b64Char (b % 16 * 4), '=']
  | a :: b :: c :: rest =>
      String.mk [b64Char (a / 4), b64Char (a % 4 * 16 + b / 16),
                 b64Char (b % 16 * 4 + c / 64), b64Char (c % 64)]
        ++ b64EncodeBytes rest

/-- Model of `base64.b64encode(content.encode('utf-8')).decode('utf-8')`. -/
def b64encode (s : String) : String :=
  b64EncodeBytes (s.toUTF8.toList.map (fun b => b.toNat))

/-- Value of `base64.b64encode(b'0' * 16)`: the dummy IV stored on system messages
(rooms.py line 36). -/
def fakeIv : String := b64EncodeBytes (List.replicate 16 48)

/-- Addressing of an `emit` call: the requesting session (flask-socketio
default), a socket.io room, a socket.io room with `include_self=False`, or
one explicit session id. -/
inductive Target where
  | caller : Target
  | room : Nat → Target
  | roomExceptSelf : Nat → Target
  | session : String → Target
deriving Repr, DecidableEq

/-- One participant entry of the `connected` payload's per-room data. -/
structure ParticipantData where
  user_id : Nat
  username : String
  public_key : String
deriving Repr, DecidableEq

/-- One entry of `rooms_data` in the `connected` payload (connection.py
lines 69-94): room dict highlights, participants, and this user's
version-indexed wrapped-key map (ascending by version). -/
structure ConnRoomData where
  room_id : Nat
  current_key_version : Nat
  participants : List ParticipantData
  encrypted_symmetric_keys : List (Nat × String)
deriving Repr, DecidableEq

/-- The fields of a broadcast / history message record that the handlers
put on the wire. -/
structure MessageOut where
  message_id : Nat
  room_id : Nat
  sender_id : Option Nat
  encrypted_content : String
  iv : String
  key_version : Nat
  message_type : String
deriving Repr, DecidableEq

/-- Event payloads emitted by the handlers (field highlights only; opaque
blobs are carried verbatim). -/
inductive Payload where
  | error (message : String)
  | connected (user_id : Nat) (rooms : List ConnRoomData)
  | roomCreated (room_id : Nat) (created_by : String) (encryption_setup : Bool)
  | usersInvited (room_id : Nat) (invited_user_ids : List Nat)
      (invited_by : String) (new_key_version : Nat)
  | invitedToRoom (room_id : Nat) (invited_by : String)
      (encrypted_key : Option String) (new_key_version : Nat)
  | roomJoined (room_id : Nat)
  | userJoined (room_id : Nat) (user_id : Nat)
  | roomDeleted (room_id : Nat)
  | userLeft (room_id : Nat) (user_id : Nat) (username : String)
      (rotation_required : Bool)
  | rotationRequired (room_id : Nat) (reason : String)
  | roomLeft (room_id : Nat)
  | keyRotated (room_id : Nat) (new_key_version : Nat) (reason : String)
      (rotated_by : String) (encrypted_key : Option String)
  | newMessage (m : MessageOut)
  | messagesHistory (room_id : Nat) (messages : List MessageOut)
      (count : Nat) (offset : Nat) (has_more : Bool)
deriving Repr, DecidableEq

/-- One `emit(event, payload, ...)` call. -/
structure Emit where
  event : String
  target : Target
  payload : Payload
deriving Repr, DecidableEq

/-- Model of `emit('error', ...)` with the message, to the requesting session. -/
def errEmit (msg : String) : Emit :=
  { event := "error", target := Target.caller, payload := Payload.error msg }

/-- The session ids a single emitted event is written to, given the
socket.io subscription list and the requesting session. -/
def deliveredSids (subs : List (String × Nat)) (caller : String) (e : Emit) :
    List String :=
  match e.target with
  | Target.caller => [caller]
  | Target.session s => [s]
  | Target.room rid => ((subs.filter (fun p => p.2 == rid)).map (fun p => p.1)).dedup
  | Target.roomExceptSelf rid =>
      (((subs.filter (fun p => p.2 == rid)).map (fun p => p.1)).dedup).filter
        (fun s => s != caller)

/-- Result of one inbound event: next gateway state and the emitted events
in emission order. -/
abbrev Res := ServerState × List Emit

/-- An element of an `encrypted_keys` / `new_encrypted_keys` JSON array as
read with `.get` by `create_room`, `invite_to_room` and `leave_room`. -/
structure KeyDataReq where
  user_id : Option Nat
  encrypted_key : Option String
deriving Repr, DecidableEq

/-- An element of `new_encrypted_keys` as read by `rotate_room_key`, which
indexes `k['user_id']` and `k['encrypted_key']` directly. -/
structure RotKeyReq where
  user_id : Nat
  encrypted_key : String
deriving Repr, DecidableEq

/-- The `create_room` request payload. -/
structure CreateRoomReq where
  name : Option String
  participant_ids : List Nat
  is_group : Option Bool
  encrypted_keys : List KeyDataReq
deriving Repr, DecidableEq

/-- The `invite_to_room` request payload. -/
structure InviteReq where
  room_id : Option Nat
  invited_user_ids : List Nat
  new_encrypted_keys : List KeyDataReq
deriving Repr, DecidableEq

/-- The `join_room` request payload. -/
structure JoinReq where
  room_id : Option Nat
deriving Repr, DecidableEq

/-- The `leave_room` request payload (`new_encrypted_keys` is read by the
handler but never used afterwards). -/
structure LeaveReq where
  room_id : Option Nat
  new_encrypted_keys : List KeyDataReq
deriving Repr, DecidableEq

/-- The `rotate_room_key` request payload. -/
structure RotateReq where
  room_id : Option Nat
  new_encrypted_keys : List RotKeyReq
deriving Repr, DecidableEq

/-- The `send_message` request payload. -/
structure SendMessageReq where
  room_id : Option Nat
  encrypted_content : Option String
  iv : Option String
  tag : Option String
  key_version : Option Nat
deriving Repr, DecidableEq

/-- The `get_messages` request payload. -/
structure GetMessagesReq where
  room_id : Option Nat
  limit : Option Nat
  offset : Option Nat
deriving Repr, DecidableEq

/-- Boolean pairwise-distinctness (used for database uniqueness guards). -/
def distinctList [BEq α] : List α → Bool
  | [] => true
  | a :: t => !t.contains a && distinctList t

/-- Composite identity of a ledger row, the column set of the
`_room_user_version_uc` unique constraint. -/
def keyId (k : SymmetricKey) : Nat × Nat × Nat := (k.room_id, k.user_id, k.key_version)

/-- Whether inserting `newKeys` next to `existing` satisfies the
`(room_id, user_id, key_version)` unique constraint; a violation makes the
enclosing `db.session.commit()` raise and the handler roll back. -/
def insertFresh (existing newKeys : List SymmetricKey) : Bool :=
  distinctList (newKeys.map keyId) &&
  newKeys.all (fun k => !existing.any (fun k0 => keyId k0 == keyId k))

/-- Python set equality of two id lists (`set(a) == set(b)`). -/
def sameIdSet (a b : List Nat) : Bool :=
  a.all (fun x => b.contains x) && b.all (fun x => a.contains x)

/-- The wrap-storage loops of `create_room` (rooms.py lines 96-116) and
`invite_to_room` (rooms.py lines 196-215): keep the supplied wraps whose
`user_id` and `encrypted_key` are truthy and whose user is a participant,
as ledger rows at the given version.  Wraps failing any check are silently
skipped — there is no completeness requirement. -/
def wrapRow (rid : Nat) (parts : List Nat) (version : Nat)
    (kd : KeyDataReq) : Option SymmetricKey :=
  match kd.user_id, kd.encrypted_key with
  | some tuid, some ek =>
      if tuid != 0 && ek != "" && parts.contains tuid then
        some { room_id := rid, user_id := tuid, key_version := version,
               encrypted_key := ek, revoked_at := none }
      else none
  | _, _ => none

def validWraps (rid : Nat) (parts : List Nat) (version : Nat)
    (wraps : List KeyDataReq) : List SymmetricKey :=
  wraps.filterMap (wrapRow rid parts version)

/-- The wrap rows inserted by `rotate_room_key` (key_rotation.py lines
120-128): one ledger row per supplied wrap at the new version. -/
def rotWraps (rid : Nat) (version : Nat) (wraps : List RotKeyReq) :
    List SymmetricKey :=
  wraps.map (fun kd =>
    { room_id := rid, user_id := kd.user_id, key_version := version,
      encrypted_key := kd.encrypted_key, revoked_at := none })

/-- The bulk revocation of the previous version's ledger rows performed by
invite and rotate (`old_key.revoked_at = datetime.now(...)`). -/
def revokeKeys (ks : List SymmetricKey) (rid version now : Nat) :
    List SymmetricKey :=
  ks.map (fun k =>
    if k.room_id == rid && k.key_version == version then
      { k with revoked_at := some now }
    else k)

/-- Insertion sort of ledger rows by ascending `key_version` (the
`order_by(SymmetricKey.key_version.asc())` of the connect handler). -/
def insertByVersion (k : SymmetricKey) : List SymmetricKey → List SymmetricKey
  | [] => [k]
  | h :: t =>
      if k.key_version ≤ h.key_version then k :: h :: t
      else h :: insertByVersion k t

def sortByVersion (ks : List SymmetricKey) : List SymmetricKey :=
  ks.foldr insertByVersion []

/-- Stable insertion sort of messages by descending `created_at` with id as
tiebreak (the reverse-chronological history query ordering). -/
def insertMsgDesc (m : Message) : List Message → List Message
  | [] => [m]
  | h :: t =>
      if h.created_at > m.created_at || (h.created_at == m.created_at && h.id > m.id) then
        h :: insertMsgDesc m t
      else m :: h :: t

def sortMessagesDesc (ms : List Message) : List Message :=
  ms.foldr insertMsgDesc []

/-- Database error strings surfaced through `str(e)` in the handlers'
`except` branches. -/
def uniqueKeyViolation : String :=
  "UNIQUE constraint failed: symmetric_keys.room_id, symmetric_keys.user_id, symmetric_keys.key_version"

def participantsPKViolation : String :=
  "UNIQUE constraint failed: room_participants.user_id, room_participants.room_id"

def notNullViolation : String :=
  "NOT NULL constraint failed: symmetric_keys.room_id"

/-- Model of `create_system_message` (rooms.py lines 15-49): appends a
`message_type='system'` row carrying the base64-encoded plain text and the
dummy IV at the given key version (or the room's current version). -/
def create_system_message (db : DB) (room_id : Nat) (content : String)
    (key_version : Option Nat) : DB :=
  match lookupRoom db room_id with
  | none => db
  | some room =>
      let kv := key_version.getD room.current_key_version
      { db with
        messages := db.messages ++
          [{ id := db.next_message_id, room_id := room_id, sender_id := none,
             message_type := "system", encrypted_content := b64encode content,
             iv := fakeIv, key_version := kv, created_at := db.now }],
        next_message_id := db.next_message_id + 1,
        now := db.now + 1 }

/-- The `rooms_data` list built by the connect handler (connection.py lines
65-94): for each room the user participates in, the room highlights, all
participants with public keys, and this user's full version-indexed
wrapped-key map. -/
def connRoomsData (db : DB) (uid : Nat) : List ConnRoomData :=
  (db.rooms.filter (fun r => r.participants.contains uid)).map (fun r =>
    { room_id := r.id
      current_key_version := r.current_key_version
      participants := r.participants.filterMap (fun pid =>
        (lookupUser db pid).map (fun p =>
          { user_id := p.id, username := p.username, public_key := p.public_key }))
      encrypted_symmetric_keys :=
        (sortByVersion (db.sym_keys.filter
            (fun k => k.room_id == r.id && k.user_id == uid))).map
          (fun k => (k.key_version, k.encrypted_key)) })

/-- Model of `handle_connect` (connection.py lines 39-113).  `decoded` is the outcome
of the external JWT decode of the handshake token (`none` covers a missing
or invalid token).  The returned `Bool` is whether the connection is kept;
a rejected handshake disconnects without an error event.  On success the
session is registered in `connected_users` and receives the `connected`
payload followed by one `rotation_required` per rotation-pending room; the
handler performs no socket.io `join_room`, so `subs` is untouched. -/
def handle_connect (st : ServerState) (sid : String) (decoded : Option Nat) :
    ServerState × List Emit × Bool :=
  match decoded with
  | none => (st, [], false)
  | some uid =>
      match lookupUser st.db uid with
      | none => (st, [], false)
      | some user =>
          let rooms := st.db.rooms.filter (fun r => r.participants.contains uid)
          let st2 := { st with
            connected_users := dictInsert st.connected_users sid
              { user_id := uid, username := user.username } }
          let emits :=
            ({ event := "connected", target := Target.caller,
               payload := Payload.connected uid (connRoomsData st.db uid) } : Emit) ::
            (rooms.filter (fun r => r.rotation_pending)).map (fun r =>
              ({ event := "rotation_required", target := Target.caller,
                 payload := Payload.rotationRequired r.id "pending_from_leave" } : Emit))
          (st2, emits, true)

/-- Model of `handle_create_room` (rooms.py lines 55-137).  The creator and the
existing users of `participant_ids` become participants (the creator is
not double-appended, but duplicate ids in `participant_ids` are appended
twice and then violate the association primary key at commit).  Wraps with
falsy fields or for non-participants are silently skipped; the valid ones
are installed at version 1 in a second commit. -/
def handle_create_room (st : ServerState) (sid : String) (data : CreateRoomReq) : Res :=
  match connLookup st sid with
  | none => (st, [errEmit "Not authenticated"])
  | some cu =>
      match lookupUser st.db cu.user_id with
      | none => (st, [errEmit "Failed to create room: creator not found"])
      | some _creator =>
          let rid := st.db.next_room_id
          let parts := cu.user_id :: data.participant_ids.filter (fun pid =>
            pid != cu.user_id && (lookupUser st.db pid).isSome)
          if !distinctList parts then
            (st, [errEmit ("Failed to create room: " ++ participantsPKViolation)])
          else
            let newRoom : Room :=
              { id := rid, name := data.name,
                is_group := data.is_group.getD (data.participant_ids.length > 1),
                current_key_version := 1, rotation_pending := false,
                participants := parts }
            let db1 := { st.db with
              rooms := st.db.rooms ++ [newRoom],
              next_room_id := rid + 1 }
            let validKeys := validWraps rid parts 1 data.encrypted_keys
            if !insertFresh db1.sym_keys validKeys then
              -- the room creation was already committed; only the key
              -- inserts are rolled back before the error event
              ({ st with db := db1 },
               [errEmit ("Failed to create room: " ++ uniqueKeyViolation)])
            else
              let db2 := { db1 with sym_keys := db1.sym_keys ++ validKeys }
              let payload := Payload.roomCreated rid cu.username
                (data.encrypted_keys.length > 0)
              ({ st with db := db2, subs := addSub st.subs sid rid },
               ({ event := "room_created", target := Target.caller,
                  payload := payload } : Emit) ::
               (if parts.length > 1 then
                  [{ event := "room_created", target := Target.roomExceptSelf rid,
                     payload := payload }]
                else []))

/-- The sequential invited-user loop of `handle_invite_to_room` (rooms.py
lines 172-178): returns the grown participant list and the newly added ids
in order; ids of unknown users and users already present are skipped. -/
def addInvited (db : DB) : List Nat → List Nat → List Nat × List Nat
  | parts, [] => (parts, [])
  | parts, i :: rest =>
      if (lookupUser db i).isSome && !parts.contains i then
        let r := addInvited db (parts ++ [i]) rest
        (r.1, i :: r.2)
      else addInvited db parts rest

/-- Model of `handle_invite_to_room` (rooms.py lines 139-261).  Adds the invitees,
bumps the key version, revokes the previous version's ledger rows, and
stores whichever wraps were supplied for participants — there is no
completeness check on the wrap set. -/
def handle_invite_to_room (st : ServerState) (sid : String) (data : InviteReq) : Res :=
  match connLookup st sid with
  | none => (st, [errEmit "Not authenticated"])
  | some cu =>
      if !(truthyNat data.room_id && !data.invited_user_ids.isEmpty) then
        (st, [errEmit "room_id and invited_user_ids are required"])
      else
        let rid := data.room_id.getD 0
        match lookupRoom st.db rid with
        | none => (st, [errEmit "Room not found"])
        | some room =>
            if !room.participants.contains cu.user_id then
              (st, [errEmit "Only participants can invite to room"])
            else
              let grown := addInvited st.db room.participants data.invited_user_ids
              if grown.2.isEmpty then (st, [errEmit "No new users were added"])
              else
                let new_version := room.current_key_version + 1
                let revoked := revokeKeys st.db.sym_keys rid
                  room.current_key_version st.db.now
                let validKeys := validWraps rid grown.1 new_version
                  data.new_encrypted_keys
                if !insertFresh st.db.sym_keys validKeys then
                  (st, [errEmit ("Failed to invite users: " ++ uniqueKeyViolation)])
                else
                  let db1 := { st.db with
                    rooms := st.db.rooms.map (fun r =>
                      if r.id == rid then
                        { r with participants := grown.1,
                                 current_key_version := new_version }
                      else r),
                    sym_keys := revoked ++ validKeys }
                  let invitedNames := String.intercalate ", "
                    (grown.2.filterMap (fun uid =>
                      (lookupUser st.db uid).map (fun u => u.username)))
                  let db2 := create_system_message db1 rid
                    (invitedNames ++ " joined the room") (some new_version)
                  let inviteEmits := grown.2.flatMap (fun uid =>
                    let invited_key :=
                      (data.new_encrypted_keys.find? (fun kd =>
                        kd.user_id == some uid)).bind (fun kd => kd.encrypted_key)
                    (st.connected_users.filter (fun p => p.2.user_id == uid)).map
                      (fun p =>
                        ({ event := "invited_to_room", target := Target.session p.1,
                           payload := Payload.invitedToRoom rid cu.username
                             invited_key new_version } : Emit)))
                  ({ st with db := db2 },
                   ({ event := "users_invited", target := Target.room rid,
                      payload := Payload.usersInvited rid grown.2 cu.username
                        new_version } : Emit) :: inviteEmits)

/-- Model of `handle_join_room` (rooms.py lines 263-307): subscribes a participant's
session to the room channel. -/
def handle_join_room (st : ServerState) (sid : String) (data : JoinReq) : Res :=
  match connLookup st sid with
  | none => (st, [errEmit "Not authenticated"])
  | some cu =>
      if !truthyNat data.room_id then (st, [errEmit "room_id is required"])
      else
        let rid := data.room_id.getD 0
        match lookupRoom st.db rid with
        | none => (st, [errEmit "Room not found"])
        | some room =>
            if !room.participants.contains cu.user_id then
              (st, [errEmit "Not a participant in this room"])
            else
              ({ st with subs := addSub st.subs sid rid },
               [{ event := "room_joined", target := Target.caller,
                  payload := Payload.roomJoined rid },
                { event := "user_joined", target := Target.roomExceptSelf rid,
                  payload := Payload.userJoined rid cu.user_id }])

/-- Model of `handle_leave_room` (rooms.py lines 309-408).  Sole-participant leaves
try to delete the room; the missing delete cascade on `SymmetricKey.room`
makes that commit fail whenever ledger rows for the room exist (the rows
would be nullified against the NOT NULL `room_id` column), rolling the
whole transaction back.  Otherwise the leaver is removed, all of the
leaver's ledger rows for the room are deleted (`filter_by(room_id,
user_id).delete()` has no version filter), `rotation_pending` is set, a
system message is appended at the pre-rotation version, and one connected
remaining participant (first encountered in `connected_users`) receives a
targeted `rotation_required`. -/
def handle_leave_room (st : ServerState) (sid : String) (data : LeaveReq) : Res :=
  match connLookup st sid with
  | none => (st, [errEmit "Not authenticated"])
  | some cu =>
      if !truthyNat data.room_id then (st, [errEmit "room_id is required"])
      else
        let rid := data.room_id.getD 0
        match lookupRoom st.db rid with
        | none => (st, [errEmit "Room not found"])
        | some room =>
            if !room.participants.contains cu.user_id then
              (st, [errEmit "Not a participant in this room"])
            else
              let parts2 := room.participants.erase cu.user_id
              if parts2.isEmpty then
                if st.db.sym_keys.any (fun k => k.room_id == rid) then
                  (st, [errEmit ("Failed to leave room: " ++ notNullViolation)])
                else
                  ({ st with
                     db := { st.db with
                       rooms := st.db.rooms.filter (fun r => !(r.id == rid)),
                       messages := st.db.messages.filter (fun m => !(m.room_id == rid)) },
                     subs := removeSub st.subs sid rid },
                   [{ event := "room_deleted", target := Target.caller,
                      payload := Payload.roomDeleted rid }])
              else
                let db1 := { st.db with
                  rooms := st.db.rooms.map (fun r =>
                    if r.id == rid then
                      { r with participants := parts2, rotation_pending := true }
                    else r),
                  sym_keys := st.db.sym_keys.filter (fun k =>
                    !(k.room_id == rid && k.user_id == cu.user_id)) }
                let db2 := create_system_message db1 rid
                  (cu.username ++ " left the room") (some room.current_key_version)
                let rotEmits :=
                  match st.connected_users.find? (fun p =>
                      parts2.contains p.2.user_id) with
                  | some p =>
                      [({ event := "rotation_required", target := Target.session p.1,
                          payload := Payload.rotationRequired rid "user_left" } : Emit)]
                  | none => []
                ({ st with db := db2, subs := removeSub st.subs sid rid },
                 ({ event := "user_left", target := Target.room rid,
                    payload := Payload.userLeft rid cu.user_id cu.username true } : Emit)
                 :: rotEmits ++
                 [{ event := "room_left", target := Target.caller,
                    payload := Payload.roomLeft rid }])

/-- Model of `handle_rotate_room_key` (key_rotation.py lines 54-157).  Enforces that
the supplied wrap set covers exactly the current participant set (Python
set equality) before bumping the version, clearing `rotation_pending`,
revoking the previous version and installing the new wraps. -/
def handle_rotate_room_key (st : ServerState) (sid : String) (data : RotateReq) : Res :=
  match connLookup st sid with
  | none => (st, [errEmit "Not authenticated"])
  | some cu =>
      if !truthyNat data.room_id then (st, [errEmit "room_id is required"])
      else if data.new_encrypted_keys.isEmpty then
        (st, [errEmit "new_encrypted_keys is required for all current participants"])
      else
        let rid := data.room_id.getD 0
        match lookupRoom st.db rid with
        | none => (st, [errEmit "Room not found"])
        | some room =>
            if !room.participants.contains cu.user_id then
              (st, [errEmit "Only participants can rotate room keys"])
            else if room.participants.isEmpty then
              (st, [errEmit "Cannot rotate keys in empty room"])
            else if !sameIdSet room.participants
                (data.new_encrypted_keys.map (fun k => k.user_id)) then
              (st, [errEmit "Must provide keys for ALL current participants"])
            else
              let new_version := room.current_key_version + 1
              let revoked := revokeKeys st.db.sym_keys rid
                room.current_key_version st.db.now
              let newKeys := rotWraps rid new_version data.new_encrypted_keys
              if !insertFresh st.db.sym_keys newKeys then
                (st, [errEmit ("Failed to rotate key: " ++ uniqueKeyViolation)])
              else
                let db1 := { st.db with
                  rooms := st.db.rooms.map (fun r =>
                    if r.id == rid then
                      { r with current_key_version := new_version,
                               rotation_pending := false }
                    else r),
                  sym_keys := revoked ++ newKeys }
                let emits := room.participants.flatMap (fun pid =>
                  let pkey := (data.new_encrypted_keys.find? (fun k =>
                    k.user_id == pid)).map (fun k => k.encrypted_key)
                  (st.connected_users.filter (fun p => p.2.user_id == pid)).map
                    (fun p =>
                      ({ event := "key_rotated", target := Target.session p.1,
                         payload := Payload.keyRotated rid new_version
                           "manual_rotation" cu.username pkey } : Emit)))
                ({ st with db := db1 }, emits)

/-- Model of `handle_send_message` (messages.py lines 17-88).  Stores the ciphertext
with the sender-supplied `key_version` — there is no comparison against
`room.current_key_version` — and broadcasts `new_message` to the room. -/
def handle_send_message (st : ServerState) (sid : String) (data : SendMessageReq) : Res :=
  match connLookup st sid with
  | none => (st, [errEmit "Not authenticated"])
  | some cu =>
      if !(truthyNat data.room_id && truthyStr data.encrypted_content &&
           truthyStr data.iv && truthyNat data.key_version) then
        (st, [errEmit "room_id, encrypted_content, iv, and key_version are required"])
      else
        let rid := data.room_id.getD 0
        match lookupRoom st.db rid with
        | none => (st, [errEmit "Room not found"])
        | some room =>
            if !room.participants.contains cu.user_id then
              (st, [errEmit "Not a participant in this room"])
            else
              let msg : Message :=
                { id := st.db.next_message_id, room_id := rid,
                  sender_id := some cu.user_id, message_type := "user",
                  encrypted_content := data.encrypted_content.getD "",
                  iv := data.iv.getD "", key_version := data.key_version.getD 0,
                  created_at := st.db.now }
              ({ st with db := { st.db with
                   messages := st.db.messages ++ [msg],
                   next_message_id := st.db.next_message_id + 1,
                   now := st.db.now + 1 } },
               [{ event := "new_message", target := Target.room rid,
                  payload := Payload.newMessage
                    { message_id := msg.id, room_id := rid,
                      sender_id := some cu.user_id,
                      encrypted_content := msg.encrypted_content, iv := msg.iv,
                      key_version := msg.key_version, message_type := "user" } }])

/-- Model of `handle_get_messages` (messages.py lines 90-165).  After the access
checks the handler builds `Message.query...order_by(Message.timestamp.desc())`;
the `Message` model defines `created_at` and no `timestamp` attribute
(`messageModelAttrs`), so the attribute access raises `AttributeError`,
the `except` branch fires, and an error event is emitted on every call
that reaches the query.  The guarded branch models the intended
reverse-chronological pagination (page selected most-recent-first, then
reversed before emission) and is unreachable. -/
def handle_get_messages (st : ServerState) (sid : String) (data : GetMessagesReq) : Res :=
  match connLookup st sid with
  | none => (st, [errEmit "Not authenticated"])
  | some cu =>
      let limit := data.limit.getD 50
      let offset := data.offset.getD 0
      if !truthyNat data.room_id then (st, [errEmit "room_id is required"])
      else
        let rid := data.room_id.getD 0
        match lookupRoom st.db rid with
        | none => (st, [errEmit "Room not found"])
        | some room =>
            if !room.participants.contains cu.user_id then
              (st, [errEmit "Not a participant in this room"])
            else if messageModelAttrs.contains "timestamp" then
              let page := ((sortMessagesDesc (st.db.messages.filter
                (fun m => m.room_id == rid))).drop offset).take limit
              let outs := page.reverse.map (fun m =>
                ({ message_id := m.id, room_id := rid, sender_id := m.sender_id,
                   encrypted_content := m.encrypted_content, iv := m.iv,
                   key_version := m.key_version,
                   message_type := m.message_type } : MessageOut))
              (st, [{ event := "messages_history", target := Target.caller,
                      payload := Payload.messagesHistory rid outs outs.length
                        offset (page.length == limit) }])
            else
              (st, [errEmit "Failed to get messages: type object Message has no attribute timestamp"])

/-- One client-originated room-lifecycle operation (the operation set of
the ledger-contiguity claim): create, invite, leave or rotate. -/
inductive Op where
  | create (sid : String) (data : CreateRoomReq)
  | invite (sid : String) (data : InviteReq)
  | leave (sid : String) (data : LeaveReq)
  | rotate (sid : String) (data : RotateReq)
deriving Repr

/-- State reached after handling one operation (events discarded). -/
def applyOp (st : ServerState) : Op → ServerState
  | Op.create sid d => (handle_create_room st sid d).1
  | Op.invite sid d => (handle_invite_to_room st sid d).1
  | Op.leave sid d => (handle_leave_room st sid d).1
  | Op.rotate sid d => (handle_rotate_room_key st sid d).1

/-- State reached after a sequence of operations. -/
def applyOps (ops : List Op) (st : ServerState) : ServerState :=
  ops.foldl applyOp st

/-- Every ledger row's version lies in `[1 .. current_key_version]` of its
room: the subset half of the spec's contiguity invariant. -/
def VersionsInRange (db : DB) : Prop :=
  ∀ k ∈ db.sym_keys, ∀ r ∈ db.rooms, k.room_id = r.id →
    1 ≤ k.key_version ∧ k.key_version ≤ r.current_key_version

/-- Database well-formedness maintained by the handlers: distinct room ids
below the id counter, no orphaned ledger rows, and `VersionsInRange`. -/
def WF (db : DB) : Prop :=
  (db.rooms.map (fun r => r.id)).Nodup ∧
  (∀ r ∈ db.rooms, r.id < db.next_room_id) ∧
  (∀ k ∈ db.sym_keys, ∃ r ∈ db.rooms, r.id = k.room_id) ∧
  VersionsInRange db

/-- Fixture: three registered users. -/
def userA : User := { id := 1, username := "alice", public_key := "pkA" }

def userB : User := { id := 2, username := "bob", public_key := "pkB" }

def userC : User := { id := 3, username := "carol", public_key := "pkC" }

/-- Fixture ledger row. -/
def skey (r u v : Nat) (s : String) : SymmetricKey :=
  { room_id := r, user_id := u, key_version := v, encrypted_key := s,
    revoked_at := none }

/-- Fixture: room 1 shared by alice and bob at key version 2. -/
def sampleRoom : Room :=
  { id := 1, name := some "r", is_group := false, current_key_version := 2,
    rotation_pending := false, participants := [1, 2] }

/-- Fixture database: room 1 with a complete two-version ledger. -/
def sampleDb : DB :=
  { users := [userA, userB, userC]
    rooms := [sampleRoom]
    sym_keys := [skey 1 1 1 "A1", skey 1 2 1 "B1", skey 1 1 2 "A2", skey 1 2 2 "B2"]
    messages := []
    next_room_id := 2
    next_message_id := 1
    now := 10 }

/-- Fixture gateway state: alice and bob connected and subscribed. -/
def sampleSt : ServerState :=
  { db := sampleDb
    connected_users := [("a", { user_id := 1, username := "alice" }),
                        ("b", { user_id := 2, username := "bob" })]
    subs := [("a", 1), ("b", 1)] }

/-- Fixture: alice alone in room 1, holding a version-1 ledger row. -/
def soloSt : ServerState :=
  { db := { sampleDb with
      rooms := [{ id := 1, name := some "r", is_group := false,
                  current_key_version := 1, rotation_pending := false,
                  participants := [1] }]
      sym_keys := [skey 1 1 1 "A1"] }
    connected_users := [("a", { user_id := 1, username := "alice" })]
    subs := [("a", 1)] }

/-- Fixture: alice registered and connected, no rooms yet. -/
def minSt : ServerState :=
  { db := { users := [userA], rooms := [], sym_keys := [], messages := [],
            next_room_id := 1, next_message_id := 1, now := 0 }
    connected_users := [("a", { user_id := 1, username := "alice" })]
    subs := [] }

/-- Fixture: nobody connected. -/
def emptySt : ServerState :=
  { db := { users := [], rooms := [], sym_keys := [], messages := [],
            next_room_id := 1, next_message_id := 1, now := 0 }
    connected_users := []
    subs := [] }

/-- Fixture: like `sampleSt` but bob is offline (not connected, not
subscribed). -/
def discSt : ServerState :=
  { sampleSt with
    connected_users := [("a", { user_id := 1, username := "alice" })]
    subs := [("a", 1)] }

/-!
## Theorems

Each claim of the specification audit is settled by one theorem below
(plus a closed counterexample where the claim fails on the code, and a
closed witness where the theorem carries hypotheses).
-/

/-- C1, counterexample:  The claim says an invite whose wrap set does
not cover every user in (current participants ∪ invitees) is rejected with
an error and no state change.  On `sampleSt` (participants `{1,2}`,
version 2), alice invites carol supplying an *empty* wrap set: no error is
emitted, the participant set grows to `{1,2,3}`, `current_key_version`
becomes 3, and no version-3 ledger rows exist — the invite committed. -/
theorem c1_counterexample :
    let res := handle_invite_to_room sampleSt "a"
      { room_id := some 1, invited_user_ids := [3], new_encrypted_keys := [] }
    (∀ e ∈ res.2, e.event ≠ "error") ∧
    lookupRoom res.1.db 1 =
      some { id := 1, name := some "r", is_group := false,
             current_key_version := 3, rotation_pending := false,
             participants := [1, 2, 3] } ∧
    res.1.db.sym_keys.filter (fun k => k.key_version == 3) = [] := by decide

/-- C3, counterexample:  The claim says the ledger's version set always
equals `{1, …, current_key_version}`.  A single `create_room` with an empty
`encrypted_keys` list produces a room at version 1 with an empty ledger:
the version set is `∅ ≠ {1}`. -/
theorem c3_counterexample :
    let st1 := applyOps [Op.create "a"
      { name := some "r", participant_ids := [], is_group := none,
        encrypted_keys := [] }] minSt
    lookupRoom st1.db 1 =
      some { id := 1, name := some "r", is_group := false,
             current_key_version := 1, rotation_pending := false,
             participants := [1] } ∧
    st1.db.sym_keys = [] := by decide

/-- C4, counterexample:  The claim says a leave deletes exactly the
leaver's ledger row at the room's *current* version, keeping strictly
earlier ones.  On `sampleSt` (current version 2) bob leaves: his version-1
row `skey 1 2 1 "B1"` — strictly earlier than the current version — is
deleted too; only alice's rows survive. -/
theorem c4_counterexample :
    let res := handle_leave_room sampleSt "b"
      { room_id := some 1, new_encrypted_keys := [] }
    skey 1 2 1 "B1" ∈ sampleSt.db.sym_keys ∧
    sampleRoom.current_key_version = 2 ∧
    res.1.db.sym_keys = [skey 1 1 1 "A1", skey 1 1 2 "A2"] := by decide

/-- C5, counterexample:  The claim says every stored message has
`key_version ≤ current_key_version`.  On `sampleSt` (current version 2)
alice sends a message with `key_version = 999`: it is accepted without
error and stored with `key_version = 999 > 2`. -/
theorem c5_counterexample :
    let res := handle_send_message sampleSt "a"
      { room_id := some 1, encrypted_content := some "CT", iv := some "IV",
        tag := some "TAG", key_version := some 999 }
    (∀ e ∈ res.2, e.event ≠ "error") ∧
    res.1.db.messages.map (fun m => m.key_version) = [999] ∧
    lookupRoom res.1.db 1 = some sampleRoom ∧
    ¬(999 ≤ sampleRoom.current_key_version) := by decide

/-- C6, counterexample:  The claim says a successful connect subscribes
the new session to every room of the user so later broadcasts reach it.
On `discSt`, bob (a participant of room 1) connects as session `"b2"`: the
handshake is accepted but the subscription list still holds only alice's
session, and a subsequent `new_message` broadcast in room 1 is delivered
to `["a"]` only — `"b2"` receives nothing without a further request. -/
theorem c6_counterexample :
    let r := handle_connect discSt "b2" (some 2)
    r.2.2 = true ∧
    (lookupRoom discSt.db 1).map (fun rm => rm.participants.contains 2) =
      some true ∧
    r.1.subs = [("a", 1)] ∧
    (let send := handle_send_message r.1 "a"
      { room_id := some 1, encrypted_content := some "CT", iv := some "IV",
        tag := none, key_version := some 1 }
     send.2.map (fun e => deliveredSids send.1.subs "a" e) = [["a"]]) := by
  decide

/-- C7, code bug:  The claim (and the spec's §9 cascade requirement)
says the sole participant's leave deletes the room and cascades messages
and ledger rows.  In the code the `SymmetricKey.room` relationship has no
delete cascade while `symmetric_keys.room_id` is NOT NULL, so the delete
commit fails whenever the room still has ledger rows: on `soloSt` the
leave returns an error event and leaves the whole state untouched — the
room, its ledger row and alice's membership all survive. -/
theorem c7_failing_eval :
    handle_leave_room soloSt "a" { room_id := some 1, new_encrypted_keys := [] } =
      (soloSt, [errEmit ("Failed to leave room: " ++ notNullViolation)]) ∧
    (lookupRoom soloSt.db 1).map (fun rm => rm.participants) = some [1] ∧
    soloSt.db.sym_keys ≠ [] := by decide

/-- C9, code bug:  The claim says `get_messages` returns the page
(reverse-chronological, offset/limit), returning an empty page with
`has_more = false` at `offset = 0, limit = 0`.  The handler's query orders
by `Message.timestamp`, an attribute the `Message` model does not define
(`messageModelAttrs`), so every call that passes the access checks raises
`AttributeError` and emits an error event instead of `messages_history` —
here evaluated at the claim's own boundary input and at the defaults. -/
theorem c9_failing_eval :
    messageModelAttrs.contains "timestamp" = false ∧
    handle_get_messages sampleSt "a"
        { room_id := some 1, limit := some 0, offset := some 0 } =
      (sampleSt,
       [errEmit "Failed to get messages: type object Message has no attribute timestamp"]) ∧
    handle_get_messages sampleSt "a"
        { room_id := some 1, limit := none, offset := none } =
      (sampleSt,
       [errEmit "Failed to get messages: type object Message has no attribute timestamp"]) := by
  decide

/-- C10:  Every client-originated gateway event issued from a session
that is not registered in `connected_users` is answered by exactly one
`error` event with message `"Not authenticated"` to that session, for
*every* request payload (so nothing in the payload is acted upon) and with
the state — hence all persistent state — unchanged. -/
theorem c10_unauthenticated_rejects (st : ServerState) (sid : String)
    (hconn : connLookup st sid = none) :
    (∀ d : CreateRoomReq,
      handle_create_room st sid d = (st, [errEmit "Not authenticated"])) ∧
    (∀ d : InviteReq,
      handle_invite_to_room st sid d = (st, [errEmit "Not authenticated"])) ∧
    (∀ d : JoinReq,
      handle_join_room st sid d = (st, [errEmit "Not authenticated"])) ∧
    (∀ d : LeaveReq,
      handle_leave_room st sid d = (st, [errEmit "Not authenticated"])) ∧
    (∀ d : RotateReq,
      handle_rotate_room_key st sid d = (st, [errEmit "Not authenticated"])) ∧
    (∀ d : SendMessageReq,
      handle_send_message st sid d = (st, [errEmit "Not authenticated"])) ∧
    (∀ d : GetMessagesReq,
      handle_get_messages st sid d = (st, [errEmit "Not authenticated"])) := by
  refine ⟨?_, ?_, ?_, ?_, ?_, ?_, ?_⟩ <;> intro d <;>
    simp [handle_create_room, handle_invite_to_room, handle_join_room,
          handle_leave_room, handle_rotate_room_key, handle_send_message,
          handle_get_messages, hconn]

/-- C10, witness:  Instantiation at a state with no connected session:
the representative handlers reject concrete payloads unchanged. -/
theorem c10_unauthenticated_rejects_witness :
    connLookup emptySt "x" = none ∧
    handle_create_room emptySt "x"
        { name := none, participant_ids := [], is_group := none,
          encrypted_keys := [] } = (emptySt, [errEmit "Not authenticated"]) ∧
    handle_leave_room emptySt "x"
        { room_id := some 1, new_encrypted_keys := [] } =
      (emptySt, [errEmit "Not authenticated"]) ∧
    handle_rotate_room_key emptySt "x"
        { room_id := some 1, new_encrypted_keys := [{ user_id := 1, encrypted_key := "K" }] } =
      (emptySt, [errEmit "Not authenticated"]) ∧
    handle_send_message emptySt "x"
        { room_id := some 1, encrypted_content := some "CT", iv := some "IV",
          tag := none, key_version := some 1 } =
      (emptySt, [errEmit "Not authenticated"]) :=
  ⟨rfl,
   (c10_unauthenticated_rejects emptySt "x" rfl).1 _,
   (c10_unauthenticated_rejects emptySt "x" rfl).2.2.2.1 _,
   (c10_unauthenticated_rejects emptySt "x" rfl).2.2.2.2.1 _,
   (c10_unauthenticated_rejects emptySt "x" rfl).2.2.2.2.2.1 _⟩

/-- Helper: `find?` by id over an id-preserving targeted update finds the
updated row. -/
theorem find?_map_update (l : List Room) (rid : Nat) (f : Room → Room)
    (hf : ∀ r, (f r).id = r.id) :
    ∀ room, l.find? (fun r => r.id == rid) = some room →
      (l.map (fun r => if r.id == rid then f r else r)).find?
          (fun r => r.id == rid) = some (f room) := by
  induction l with
  | nil => intro room h; simp at h
  | cons a t ih =>
      intro room h
      rw [List.find?_cons] at h
      cases hab : (a.id == rid) with
      | true =>
          simp only [hab] at h
          injection h with h
          subst h
          rw [List.map_cons, List.find?_cons, if_pos hab, hf, hab]
      | false =>
          simp only [hab] at h
          have hab2 : ¬((a.id == rid) = true) := by simp [hab]
          rw [List.map_cons, List.find?_cons, if_neg hab2, hab]
          exact ih room h

/-- Helper: `lookupRoom` after the handlers' targeted room update. -/
theorem lookupRoom_update (db : DB) (rid : Nat) (f : Room → Room)
    (hf : ∀ r, (f r).id = r.id) (room : Room)
    (h : lookupRoom db rid = some room) (rest : List Room)
    (hrest : rest = db.rooms.map (fun r => if r.id == rid then f r else r)) :
    rest.find? (fun r => r.id == rid) = some (f room) := by
  subst hrest
  exact find?_map_update db.rooms rid f hf room h

/-- C2:  For every `rotate_room_key` request by a participant caller:
if the set of user ids in the supplied wrap set differs from the current
participant set (Python set equality, `sameIdSet`), the handler emits
exactly the completeness error and returns the state unchanged — so
`current_key_version` is untouched and no ledger rows are added; the
rotation can commit only under set equality, in which case (when the new
rows do not collide with existing ledger identities) the version is bumped
by one, the previous version is revoked and exactly the supplied wraps are
installed, with no error. -/
theorem c2_rotate_completeness (st : ServerState) (sid : String) (cu : ConnUser)
    (rid : Nat) (wraps : List RotKeyReq) (room : Room)
    (hconn : connLookup st sid = some cu)
    (hrid : rid ≠ 0)
    (hw : wraps ≠ [])
    (hroom : lookupRoom st.db rid = some room)
    (hpart : room.participants.contains cu.user_id = true) :
    (sameIdSet room.participants (wraps.map (fun k => k.user_id)) = false →
      handle_rotate_room_key st sid
          { room_id := some rid, new_encrypted_keys := wraps } =
        (st, [errEmit "Must provide keys for ALL current participants"])) ∧
    (sameIdSet room.participants (wraps.map (fun k => k.user_id)) = true →
      insertFresh st.db.sym_keys
          (rotWraps rid (room.current_key_version + 1) wraps) = true →
      (∀ e ∈ (handle_rotate_room_key st sid
          { room_id := some rid, new_encrypted_keys := wraps }).2,
        e.event ≠ "error") ∧
      lookupRoom (handle_rotate_room_key st sid
          { room_id := some rid, new_encrypted_keys := wraps }).1.db rid =
        some { room with current_key_version := room.current_key_version + 1,
                         rotation_pending := false } ∧
      (handle_rotate_room_key st sid
          { room_id := some rid, new_encrypted_keys := wraps }).1.db.sym_keys =
        revokeKeys st.db.sym_keys rid room.current_key_version st.db.now ++
          rotWraps rid (room.current_key_version + 1) wraps) := by
  have hte : truthyNat (some rid) = true := by simp [truthyNat, hrid]
  have hie : wraps.isEmpty = false := by
    cases wraps with
    | nil => exact absurd rfl hw
    | cons a t => rfl
  have hne : room.participants.isEmpty = false := by
    cases hp : room.participants with
    | nil => rw [hp] at hpart; simp [List.contains] at hpart
    | cons a t => rfl
  constructor
  · intro hset
    simp only [handle_rotate_room_key, hconn, hte, hie, hroom, hpart, hne,
      hset, Option.getD_some, Bool.not_true, Bool.not_false, Bool.false_eq_true,
      eq_self_iff_true, if_true, if_false, ite_true, ite_false]
  · intro hset hfresh
    have hred : handle_rotate_room_key st sid
        { room_id := some rid, new_encrypted_keys := wraps } =
      ({ st with db := { st.db with
          rooms := st.db.rooms.map (fun r =>
            if r.id == rid then
              { r with current_key_version := room.current_key_version + 1,
                       rotation_pending := false }
            else r),
          sym_keys := revokeKeys st.db.sym_keys rid room.current_key_version
              st.db.now ++
            rotWraps rid (room.current_key_version + 1) wraps } },
       room.participants.flatMap (fun pid =>
         (st.connected_users.filter (fun p => p.2.user_id == pid)).map (fun p =>
           ({ event := "key_rotated", target := Target.session p.1,
              payload := Payload.keyRotated rid (room.current_key_version + 1)
                "manual_rotation" cu.username
                ((wraps.find? (fun k => k.user_id == pid)).map
                  (fun k => k.encrypted_key)) } : Emit)))) := by
      simp only [handle_rotate_room_key, hconn, hte, hie, hroom, hpart, hne,
        hset, hfresh, Option.getD_some, Bool.not_true, Bool.not_false,
        Bool.false_eq_true, eq_self_iff_true, if_true, if_false, ite_true,
        ite_false]
    rw [hred]
    refine ⟨?_, ?_, ?_⟩
    · intro e he
      simp only [List.mem_flatMap, List.mem_map, List.mem_filter] at he
      obtain ⟨pid, _, p, _, rfl⟩ := he
      simp
    · simp only [lookupRoom]
      exact find?_map_update st.db.rooms rid
        (fun r => { r with current_key_version := room.current_key_version + 1,
                           rotation_pending := false })
        (fun r => rfl) room hroom
    · rfl

/-- Helper: appending a system message leaves the rooms table unchanged. -/
theorem csm_rooms (db : DB) (r : Nat) (c : String) (kv : Option Nat) :
    (create_system_message db r c kv).rooms = db.rooms := by
  unfold create_system_message
  cases lookupRoom db r <;> rfl

/-- Helper: appending a system message leaves the ledger unchanged. -/
theorem csm_sym_keys (db : DB) (r : Nat) (c : String) (kv : Option Nat) :
    (create_system_message db r c kv).sym_keys = db.sym_keys := by
  unfold create_system_message
  cases lookupRoom db r <;> rfl

/-- Helper: appending a system message leaves the users table unchanged. -/
theorem csm_users (db : DB) (r : Nat) (c : String) (kv : Option Nat) :
    (create_system_message db r c kv).users = db.users := by
  unfold create_system_message
  cases lookupRoom db r <;> rfl

/-- Helper: appending a system message leaves the room id counter unchanged. -/
theorem csm_next_room_id (db : DB) (r : Nat) (c : String) (kv : Option Nat) :
    (create_system_message db r c kv).next_room_id = db.next_room_id := by
  unfold create_system_message
  cases lookupRoom db r <;> rfl

/-- Helper: room lookup is unaffected by appending a system message. -/
theorem lookupRoom_csm (db : DB) (r2 : Nat) (c : String) (kv : Option Nat)
    (rid : Nat) :
    lookupRoom (create_system_message db r2 c kv) rid = lookupRoom db rid := by
  unfold lookupRoom
  rw [csm_rooms]

/-- Helper: user lookup is unaffected by appending a system message. -/
theorem lookupUser_csm (db : DB) (r2 : Nat) (c : String) (kv : Option Nat)
    (uid : Nat) :
    lookupUser (create_system_message db r2 c kv) uid = lookupUser db uid := by
  unfold lookupUser
  rw [csm_users]

/-- C2, witness:  Spec scenario 4 concretely: with participants
`{1, 2}` alice rotates supplying a wrap only for herself; the handler
rejects with the completeness error and the state is exactly as before. -/
theorem c2_rotate_completeness_witness :
    handle_rotate_room_key sampleSt "a"
        { room_id := some 1,
          new_encrypted_keys := [{ user_id := 1, encrypted_key := "A3" }] } =
      (sampleSt, [errEmit "Must provide keys for ALL current participants"]) :=
  (c2_rotate_completeness sampleSt "a" { user_id := 1, username := "alice" } 1
      [{ user_id := 1, encrypted_key := "A3" }] sampleRoom (by decide) (by decide)
      (by decide) (by decide) (by decide)).1 (by decide)

/-- C5, amended:  Every message stored by an accepted `send_message` is
appended with exactly the sender-supplied `key_version`; the handler never
compares it against `room.current_key_version`, so values above the current
version are stored as-is (the claimed bound does not hold; cf. the
counterexample with version 999). -/
theorem c5_send_message_stores_supplied_version (st : ServerState)
    (sid : String) (cu : ConnUser) (rid : Nat) (ct iv : String)
    (tag : Option String) (kv : Nat) (room : Room)
    (hconn : connLookup st sid = some cu)
    (hrid : rid ≠ 0) (hct : ct ≠ "") (hiv : iv ≠ "") (hkv : kv ≠ 0)
    (hroom : lookupRoom st.db rid = some room)
    (hpart : room.participants.contains cu.user_id = true) :
    handle_send_message st sid
        { room_id := some rid, encrypted_content := some ct, iv := some iv,
          tag := tag, key_version := some kv } =
      ({ st with db := { st.db with
           messages := st.db.messages ++
             [{ id := st.db.next_message_id, room_id := rid,
                sender_id := some cu.user_id, message_type := "user",
                encrypted_content := ct, iv := iv, key_version := kv,
                created_at := st.db.now }],
           next_message_id := st.db.next_message_id + 1,
           now := st.db.now + 1 } },
       [{ event := "new_message", target := Target.room rid,
          payload := Payload.newMessage
            { message_id := st.db.next_message_id, room_id := rid,
              sender_id := some cu.user_id, encrypted_content := ct, iv := iv,
              key_version := kv, message_type := "user" } }]) := by
  have h1 : truthyNat (some rid) = true := by simp [truthyNat, hrid]
  have h2 : truthyStr (some ct) = true := by simp [truthyStr, hct]
  have h3 : truthyStr (some iv) = true := by simp [truthyStr, hiv]
  have h4 : truthyNat (some kv) = true := by simp [truthyNat, hkv]
  simp only [handle_send_message, hconn, h1, h2, h3, h4, hroom, hpart,
    Option.getD_some, Bool.and_self, Bool.and_true, Bool.true_and,
    Bool.not_true, Bool.false_eq_true, if_false, ite_false]

/-- C5, amended, witness:  Alice's concrete send at version 999 is
stored verbatim. -/
theorem c5_send_message_stores_supplied_version_witness :
    handle_send_message sampleSt "a"
        { room_id := some 1, encrypted_content := some "CT", iv := some "IV",
          tag := some "TAG", key_version := some 999 } =
      ({ sampleSt with db := { sampleDb with
           messages := sampleDb.messages ++
             [{ id := sampleDb.next_message_id, room_id := 1,
                sender_id := some 1, message_type := "user",
                encrypted_content := "CT", iv := "IV", key_version := 999,
                created_at := sampleDb.now }],
           next_message_id := sampleDb.next_message_id + 1,
           now := sampleDb.now + 1 } },
       [{ event := "new_message", target := Target.room 1,
          payload := Payload.newMessage
            { message_id := sampleDb.next_message_id, room_id := 1,
              sender_id := some 1, encrypted_content := "CT", iv := "IV",
              key_version := 999, message_type := "user" } }]) :=
  c5_send_message_stores_supplied_version sampleSt "a"
    { user_id := 1, username := "alice" } 1 "CT" "IV" (some "TAG") 999
    sampleRoom (by decide) (by decide) (by decide) (by decide) (by decide)
    (by decide) (by decide)

/-- C1, amended:  An invite by a participant that adds at least one
user is *not* checked for wrap-set completeness: whenever the supplied
wraps do not collide with existing ledger identities the invite commits —
no error is emitted, the participant set is extended by the newly added
users, `current_key_version` is incremented, and the rows installed at the
new version are exactly the supplied well-formed wraps for participants
(`validWraps`), however incomplete.  Rejection with no state change occurs
only for the authentication, field-presence, room-existence,
caller-participation and no-new-user checks. -/
theorem c1_invite_commits_without_completeness (st : ServerState)
    (sid : String) (cu : ConnUser) (rid : Nat) (invited : List Nat)
    (wraps : List KeyDataReq) (room : Room)
    (hconn : connLookup st sid = some cu)
    (hrid : rid ≠ 0)
    (hinv : invited.isEmpty = false)
    (hroom : lookupRoom st.db rid = some room)
    (hpart : room.participants.contains cu.user_id = true)
    (hnew : (addInvited st.db room.participants invited).2.isEmpty = false)
    (hfresh : insertFresh st.db.sym_keys
      (validWraps rid (addInvited st.db room.participants invited).1
        (room.current_key_version + 1) wraps) = true) :
    (∀ e ∈ (handle_invite_to_room st sid
        { room_id := some rid, invited_user_ids := invited,
          new_encrypted_keys := wraps }).2, e.event ≠ "error") ∧
    lookupRoom (handle_invite_to_room st sid
        { room_id := some rid, invited_user_ids := invited,
          new_encrypted_keys := wraps }).1.db rid =
      some { room with
        participants := (addInvited st.db room.participants invited).1,
        current_key_version := room.current_key_version + 1 } ∧
    (handle_invite_to_room st sid
        { room_id := some rid, invited_user_ids := invited,
          new_encrypted_keys := wraps }).1.db.sym_keys =
      revokeKeys st.db.sym_keys rid room.current_key_version st.db.now ++
        validWraps rid (addInvited st.db room.participants invited).1
          (room.current_key_version + 1) wraps := by
  have hte : truthyNat (some rid) = true := by simp [truthyNat, hrid]
  have hred : handle_invite_to_room st sid
      { room_id := some rid, invited_user_ids := invited,
        new_encrypted_keys := wraps } =
    ({ st with db := create_system_message
                  { st.db with
                    rooms := st.db.rooms.map (fun r =>
                      if r.id == rid then
                        { r with
                          participants :=
                            (addInvited st.db room.participants invited).1,
                          current_key_version := room.current_key_version + 1 }
                      else r),
                    sym_keys := revokeKeys st.db.sym_keys rid
                        room.current_key_version st.db.now ++
                      validWraps rid
                        (addInvited st.db room.participants invited).1
                        (room.current_key_version + 1) wraps }
                  rid
                  (String.intercalate ", "
                    ((addInvited st.db room.participants invited).2.filterMap
                      (fun uid =>
                        (lookupUser st.db uid).map (fun u => u.username))) ++
                    " joined the room")
                  (some (room.current_key_version + 1)) },
     ({ event := "users_invited", target := Target.room rid,
        payload := Payload.usersInvited rid
          (addInvited st.db room.participants invited).2 cu.username
          (room.current_key_version + 1) } : Emit) ::
     (addInvited st.db room.participants invited).2.flatMap (fun uid =>
       (st.connected_users.filter (fun p => p.2.user_id == uid)).map (fun p =>
         ({ event := "invited_to_room", target := Target.session p.1,
            payload := Payload.invitedToRoom rid cu.username
              ((wraps.find? (fun kd => kd.user_id == some uid)).bind
                (fun kd => kd.encrypted_key))
              (room.current_key_version + 1) } : Emit)))) := by
    simp only [handle_invite_to_room, hconn, hte, hinv, hroom, hpart, hnew,
      hfresh, Option.getD_some, Bool.not_true, Bool.not_false,
      Bool.false_eq_true, Bool.and_true, Bool.true_and, Bool.and_self,
      eq_self_iff_true, if_true, if_false, ite_true, ite_false]
  rw [hred]
  refine ⟨?_, ?_, ?_⟩
  · intro e he
    simp only [List.mem_cons, List.mem_flatMap, List.mem_map,
      List.mem_filter] at he
    rcases he with rfl | ⟨uid, _, p, _, rfl⟩ <;> simp
  · dsimp only
    rw [lookupRoom_csm]
    simp only [lookupRoom]
    exact find?_map_update st.db.rooms rid
      (fun r =>
        { r with
          participants := (addInvited st.db room.participants invited).1,
          current_key_version := room.current_key_version + 1 })
      (fun r => rfl) room hroom
  · dsimp only
    rw [csm_sym_keys]

/-- C1, amended, witness:  Alice invites carol supplying a wrap for
herself only (users 2 and 3 uncovered): the invite still commits. -/
theorem c1_invite_commits_without_completeness_witness :
    (∀ e ∈ (handle_invite_to_room sampleSt "a"
        { room_id := some 1, invited_user_ids := [3],
          new_encrypted_keys :=
            [{ user_id := some 1, encrypted_key := some "A3" }] }).2,
      e.event ≠ "error") ∧
    lookupRoom (handle_invite_to_room sampleSt "a"
        { room_id := some 1, invited_user_ids := [3],
          new_encrypted_keys :=
            [{ user_id := some 1, encrypted_key := some "A3" }] }).1.db 1 =
      some { sampleRoom with
        participants := (addInvited sampleSt.db sampleRoom.participants [3]).1,
        current_key_version := sampleRoom.current_key_version + 1 } ∧
    (handle_invite_to_room sampleSt "a"
        { room_id := some 1, invited_user_ids := [3],
          new_encrypted_keys :=
            [{ user_id := some 1, encrypted_key := some "A3" }] }).1.db.sym_keys =
      revokeKeys sampleSt.db.sym_keys 1 sampleRoom.current_key_version
          sampleSt.db.now ++
        validWraps 1 (addInvited sampleSt.db sampleRoom.participants [3]).1
          (sampleRoom.current_key_version + 1)
          [{ user_id := some 1, encrypted_key := some "A3" }] :=
  c1_invite_commits_without_completeness sampleSt "a"
    { user_id := 1, username := "alice" } 1 [3]
    [{ user_id := some 1, encrypted_key := some "A3" }] sampleRoom
    (by decide) (by decide) (by decide) (by decide) (by decide) (by decide)
    (by decide)

/-- Helper: reduction of a leave that does not empty the room to its
committed state and emission list (rooms.py lines 353-399). -/
theorem leave_nonempty_eq (st : ServerState) (sid : String) (cu : ConnUser)
    (rid : Nat) (keysArg : List KeyDataReq) (room : Room)
    (hconn : connLookup st sid = some cu)
    (hrid : rid ≠ 0)
    (hroom : lookupRoom st.db rid = some room)
    (hpart : room.participants.contains cu.user_id = true)
    (hrem : (room.participants.erase cu.user_id).isEmpty = false) :
    handle_leave_room st sid
        { room_id := some rid, new_encrypted_keys := keysArg } =
    ({ st with
       db := create_system_message
                { st.db with
                  rooms := st.db.rooms.map (fun r =>
                    if r.id == rid then
                      { r with
                        participants := room.participants.erase cu.user_id,
                        rotation_pending := true }
                    else r),
                  sym_keys := st.db.sym_keys.filter (fun k =>
                    !(k.room_id == rid && k.user_id == cu.user_id)) }
                rid (cu.username ++ " left the room")
                (some room.current_key_version),
       subs := removeSub st.subs sid rid },
     ({ event := "user_left", target := Target.room rid,
        payload := Payload.userLeft rid cu.user_id cu.username true } : Emit) ::
     (match st.connected_users.find? (fun p =>
         (room.participants.erase cu.user_id).contains p.2.user_id) with
      | some p =>
          [({ event := "rotation_required", target := Target.session p.1,
              payload := Payload.rotationRequired rid "user_left" } : Emit)]
      | none => []) ++
     [{ event := "room_left", target := Target.caller,
        payload := Payload.roomLeft rid }]) := by
  have hte : truthyNat (some rid) = true := by simp [truthyNat, hrid]
  simp only [handle_leave_room, hconn, hte, hroom, hpart, hrem,
    Option.getD_some, Bool.not_true, Bool.not_false, Bool.false_eq_true,
    eq_self_iff_true, if_true, if_false, ite_true, ite_false]

/-- C4, amended:  A leave by a participant of a room that keeps other
participants deletes *all* of the leaver's ledger rows for the room — the
`filter_by(room_id, user_id).delete()` has no version filter, so the rows
at strictly earlier versions are purged together with the current one —
while every other user's rows are untouched; the room survives with the
leaver removed, `rotation_pending` set and the version unchanged. -/
theorem c4_leave_purges_all_leaver_versions (st : ServerState) (sid : String)
    (cu : ConnUser) (rid : Nat) (keysArg : List KeyDataReq) (room : Room)
    (hconn : connLookup st sid = some cu)
    (hrid : rid ≠ 0)
    (hroom : lookupRoom st.db rid = some room)
    (hpart : room.participants.contains cu.user_id = true)
    (hrem : (room.participants.erase cu.user_id).isEmpty = false) :
    (handle_leave_room st sid
        { room_id := some rid, new_encrypted_keys := keysArg }).1.db.sym_keys =
      st.db.sym_keys.filter (fun k =>
        !(k.room_id == rid && k.user_id == cu.user_id)) ∧
    lookupRoom (handle_leave_room st sid
        { room_id := some rid, new_encrypted_keys := keysArg }).1.db rid =
      some { room with participants := room.participants.erase cu.user_id,
                       rotation_pending := true } := by
  rw [leave_nonempty_eq st sid cu rid keysArg room hconn hrid hroom hpart hrem]
  refine ⟨?_, ?_⟩
  · dsimp only
    rw [csm_sym_keys]
  · dsimp only
    rw [lookupRoom_csm]
    simp only [lookupRoom]
    exact find?_map_update st.db.rooms rid
      (fun r => { r with participants := room.participants.erase cu.user_id,
                         rotation_pending := true })
      (fun r => rfl) room hroom

/-- C4, amended, witness:  Bob leaves `sampleSt`'s room 1 (current
version 2): both his rows, versions 1 and 2, are deleted; alice's rows
survive; the room keeps version 2 with `rotation_pending` set. -/
theorem c4_leave_purges_all_leaver_versions_witness :
    (handle_leave_room sampleSt "b"
        { room_id := some 1, new_encrypted_keys := [] }).1.db.sym_keys =
      sampleSt.db.sym_keys.filter (fun k =>
        !(k.room_id == 1 && k.user_id == 2)) ∧
    lookupRoom (handle_leave_room sampleSt "b"
        { room_id := some 1, new_encrypted_keys := [] }).1.db 1 =
      some { sampleRoom with participants := sampleRoom.participants.erase 2,
                             rotation_pending := true } :=
  c4_leave_purges_all_leaver_versions sampleSt "b"
    { user_id := 2, username := "bob" } 1 [] sampleRoom
    (by decide) (by decide) (by decide) (by decide) (by decide)

/-- C6, amended:  A successful authenticated connect registers the
session in `connected_users` and sends it the `connected` payload (per-room
participants and the user's full wrapped-key map) followed by one
`rotation_required` per rotation-pending room of the user — but it does
*not* subscribe the session to any room channel: `subs` is unchanged, so
room broadcasts reach the session only after it issues `join_room` (or
creates a room) itself. -/
theorem c6_connect_registers_without_subscribing (st : ServerState)
    (sid : String) (uid : Nat) (user : User)
    (hu : lookupUser st.db uid = some user) :
    handle_connect st sid (some uid) =
      ({ st with connected_users := (dictInsert st.connected_users sid
           { user_id := uid, username := user.username }) },
       ({ event := "connected", target := Target.caller,
          payload := Payload.connected uid (connRoomsData st.db uid) } : Emit) ::
       ((st.db.rooms.filter (fun r =>
           r.participants.contains uid)).filter (fun r =>
             r.rotation_pending)).map (fun r =>
         ({ event := "rotation_required", target := Target.caller,
            payload := Payload.rotationRequired r.id "pending_from_leave" } : Emit)),
       true) ∧
    (handle_connect st sid (some uid)).1.subs = st.subs := by
  have h : handle_connect st sid (some uid) =
      ({ st with connected_users := (dictInsert st.connected_users sid
           { user_id := uid, username := user.username }) },
       ({ event := "connected", target := Target.caller,
          payload := Payload.connected uid (connRoomsData st.db uid) } : Emit) ::
       ((st.db.rooms.filter (fun r =>
           r.participants.contains uid)).filter (fun r =>
             r.rotation_pending)).map (fun r =>
         ({ event := "rotation_required", target := Target.caller,
            payload := Payload.rotationRequired r.id "pending_from_leave" } : Emit)),
       true) := by
    simp only [handle_connect, hu]
  exact ⟨h, by rw [h]⟩

/-- C6, amended, witness:  Bob connects on `discSt`: registered,
`connected` payload emitted, and the subscription list is exactly as
before. -/
theorem c6_connect_registers_without_subscribing_witness :
    handle_connect discSt "b2" (some 2) =
      ({ discSt with connected_users := (dictInsert discSt.connected_users "b2"
           { user_id := 2, username := "bob" }) },
       ({ event := "connected", target := Target.caller,
          payload := Payload.connected 2 (connRoomsData discSt.db 2) } : Emit) ::
       ((discSt.db.rooms.filter (fun r =>
           r.participants.contains 2)).filter (fun r =>
             r.rotation_pending)).map (fun r =>
         ({ event := "rotation_required", target := Target.caller,
            payload := Payload.rotationRequired r.id "pending_from_leave" } : Emit)),
       true) ∧
    (handle_connect discSt "b2" (some 2)).1.subs = discSt.subs :=
  c6_connect_registers_without_subscribing discSt "b2" 2 userB (by decide)

/-- Helper: the connect handler emits `rotation_required` for every
rotation-pending room the connecting user participates in
(connection.py lines 105-113). -/
theorem connect_reports_pending (st : ServerState) (sid2 : String) (uid2 : Nat)
    (user2 : User) (hu : lookupUser st.db uid2 = some user2)
    (r : Room) (hr : r ∈ st.db.rooms)
    (hp2 : r.participants.contains uid2 = true)
    (hpend : r.rotation_pending = true) :
    ({ event := "rotation_required", target := Target.caller,
       payload := Payload.rotationRequired r.id "pending_from_leave" } : Emit) ∈
      (handle_connect st sid2 (some uid2)).2.1 := by
  simp only [handle_connect, hu]
  apply List.mem_cons_of_mem
  exact List.mem_map_of_mem _
    (List.mem_filter.mpr ⟨List.mem_filter.mpr ⟨hr, hp2⟩, hpend⟩)

/-- C8:  After a participant's leave that keeps the room non-empty:
the room is left with `rotation_pending = true`; exactly one targeted
`rotation_required` is emitted — to the first entry of `connected_users`
whose user is a remaining participant — and none when no remaining
participant is connected; and any remaining participant connecting against
the post-leave state receives `rotation_required` for that room during its
connect handling. -/
theorem c8_rotation_required_delivery (st : ServerState) (sid : String)
    (cu : ConnUser) (rid : Nat) (keysArg : List KeyDataReq) (room : Room)
    (hconn : connLookup st sid = some cu)
    (hrid : rid ≠ 0)
    (hroom : lookupRoom st.db rid = some room)
    (hpart : room.participants.contains cu.user_id = true)
    (hrem : (room.participants.erase cu.user_id).isEmpty = false) :
    lookupRoom (handle_leave_room st sid
        { room_id := some rid, new_encrypted_keys := keysArg }).1.db rid =
      some { room with participants := room.participants.erase cu.user_id,
                       rotation_pending := true } ∧
    (∀ p, st.connected_users.find? (fun q =>
        (room.participants.erase cu.user_id).contains q.2.user_id) = some p →
      (handle_leave_room st sid
          { room_id := some rid, new_encrypted_keys := keysArg }).2.filter
        (fun e => e.event == "rotation_required") =
        [{ event := "rotation_required", target := Target.session p.1,
           payload := Payload.rotationRequired rid "user_left" }] ∧
      (room.participants.erase cu.user_id).contains p.2.user_id = true) ∧
    (st.connected_users.find? (fun q =>
        (room.participants.erase cu.user_id).contains q.2.user_id) = none →
      (handle_leave_room st sid
          { room_id := some rid, new_encrypted_keys := keysArg }).2.filter
        (fun e => e.event == "rotation_required") = []) ∧
    (∀ (sid2 : String) (uid2 : Nat) (user2 : User),
      lookupUser st.db uid2 = some user2 →
      (room.participants.erase cu.user_id).contains uid2 = true →
      ({ event := "rotation_required", target := Target.caller,
         payload := Payload.rotationRequired rid "pending_from_leave" } : Emit) ∈
        (handle_connect (handle_leave_room st sid
            { room_id := some rid, new_encrypted_keys := keysArg }).1 sid2
          (some uid2)).2.1) := by
  have hle := leave_nonempty_eq st sid cu rid keysArg room hconn hrid hroom
    hpart hrem
  have hfind : st.db.rooms.find? (fun r => r.id == rid) = some room := hroom
  have hbeq0 := List.find?_some hfind
  have hbeq : (room.id == rid) = true := hbeq0
  have hid : room.id = rid := by simpa using hbeq
  refine ⟨?_, ?_, ?_, ?_⟩
  · rw [hle]
    dsimp only
    rw [lookupRoom_csm]
    simp only [lookupRoom]
    exact find?_map_update st.db.rooms rid
      (fun r => { r with participants := room.participants.erase cu.user_id,
                         rotation_pending := true })
      (fun r => rfl) room hroom
  · intro p hp
    refine ⟨?_, ?_⟩
    · rw [hle, hp]
      simp [List.filter]
    · have := List.find?_some hp
      simpa using this
  · intro hp
    rw [hle, hp]
    simp [List.filter]
  · intro sid2 uid2 user2 hu hu2
    rw [hle]
    dsimp only
    have hroomMem : room ∈ st.db.rooms := List.mem_of_find?_eq_some hfind
    have hr2 : ({ room with
        participants := room.participants.erase cu.user_id,
        rotation_pending := true } : Room) ∈
        st.db.rooms.map (fun r =>
          if r.id == rid then
            { r with participants := room.participants.erase cu.user_id,
                     rotation_pending := true }
          else r) := by
      have hm := List.mem_map_of_mem (fun r =>
        if r.id == rid then
          { r with participants := room.participants.erase cu.user_id,
                   rotation_pending := true }
        else r) hroomMem
      simp only [hbeq, eq_self_iff_true, if_true, ite_true] at hm
      exact hm
    have hfin := connect_reports_pending
      ({ st with
         db := create_system_message
                  { st.db with
                    rooms := st.db.rooms.map (fun r =>
                      if r.id == rid then
                        { r with
                          participants := room.participants.erase cu.user_id,
                          rotation_pending := true }
                      else r),
                    sym_keys := st.db.sym_keys.filter (fun k =>
                      !(k.room_id == rid && k.user_id == cu.user_id)) }
                  rid (cu.username ++ " left the room")
                  (some room.current_key_version),
         subs := removeSub st.subs sid rid })
      sid2 uid2 user2
      (by dsimp only
          rw [lookupUser_csm]
          exact hu)
      ({ room with participants := room.participants.erase cu.user_id,
                   rotation_pending := true })
      (by dsimp only
          rw [csm_rooms]
          exact hr2)
      hu2 rfl
    rw [show ({ room with
        participants := room.participants.erase cu.user_id,
        rotation_pending := true } : Room).id = rid from hid] at hfin
    exact hfin

/-- C8, witness:  Bob leaves `sampleSt`'s room 1; alice (the first
connected remaining participant) is the unique target of
`rotation_required`, and the room is marked rotation-pending. -/
theorem c8_rotation_required_delivery_witness :
    (handle_leave_room sampleSt "b"
        { room_id := some 1, new_encrypted_keys := [] }).2.filter
      (fun e => e.event == "rotation_required") =
      [{ event := "rotation_required", target := Target.session "a",
         payload := Payload.rotationRequired 1 "user_left" }] ∧
    lookupRoom (handle_leave_room sampleSt "b"
        { room_id := some 1, new_encrypted_keys := [] }).1.db 1 =
      some { sampleRoom with participants := sampleRoom.participants.erase 2,
                             rotation_pending := true } :=
  have h := c8_rotation_required_delivery sampleSt "b"
    { user_id := 2, username := "bob" } 1 [] sampleRoom
    (by decide) (by decide) (by decide) (by decide) (by decide)
  ⟨(h.2.1 ("a", { user_id := 1, username := "alice" }) (by decide)).1, h.1⟩

/-- Helper: rows produced by `validWraps` carry the target room id and
version. -/
theorem validWraps_facts (rid : Nat) (parts : List Nat) (v : Nat)
    (wraps : List KeyDataReq) :
    ∀ k ∈ validWraps rid parts v wraps, k.room_id = rid ∧ k.key_version = v := by
  intro k hk
  simp only [validWraps, List.mem_filterMap] at hk
  obtain ⟨kd, _, hfk⟩ := hk
  cases h1 : kd.user_id with
  | none => rw [wrapRow, h1] at hfk; simp at hfk
  | some tuid =>
      cases h2 : kd.encrypted_key with
      | none => rw [wrapRow, h1, h2] at hfk; simp at hfk
      | some ek =>
          rw [wrapRow, h1, h2] at hfk
          dsimp only at hfk
          split at hfk
          · injection hfk with hfk
            subst hfk
            exact ⟨rfl, rfl⟩
          · simp at hfk

/-- Helper: rows produced by `rotWraps` carry the target room id and
version. -/
theorem rotWraps_facts (rid : Nat) (v : Nat) (wraps : List RotKeyReq) :
    ∀ k ∈ rotWraps rid v wraps, k.room_id = rid ∧ k.key_version = v := by
  intro k hk
  simp only [rotWraps, List.mem_map] at hk
  obtain ⟨kd, _, rfl⟩ := hk
  exact ⟨rfl, rfl⟩

/-- Helper: revocation stamping changes neither identity column. -/
theorem revokeKeys_id_ver (ks : List SymmetricKey) (rid v now : Nat) :
    ∀ k2 ∈ revokeKeys ks rid v now, ∃ k ∈ ks,
      k2.room_id = k.room_id ∧ k2.key_version = k.key_version := by
  intro k2 hk2
  simp only [revokeKeys, List.mem_map] at hk2
  obtain ⟨k0, hk0, rfl⟩ := hk2
  refine ⟨k0, hk0, ?_, ?_⟩ <;> split <;> rfl

/-- Helper: an id-preserving map leaves the room id column unchanged. -/
theorem map_ids_eq (l : List Room) (F : Room → Room)
    (hF : ∀ r, (F r).id = r.id) :
    (l.map F).map (fun r => r.id) = l.map (fun r => r.id) := by
  rw [List.map_map]
  exact List.map_congr_left (fun r _ => hF r)

/-- Helper: with distinct room ids, any member sharing the looked-up id is
the looked-up room. -/
theorem find?_unique_by_id (l : List Room) (rid : Nat)
    (hnd : (l.map (fun r => r.id)).Nodup) (room : Room)
    (hf : l.find? (fun r => r.id == rid) = some room) :
    ∀ r ∈ l, r.id = rid → r = room := by
  induction l with
  | nil => intro r hr; simp at hr
  | cons a t ih =>
      intro r hr hrid
      rw [List.find?_cons] at hf
      rcases List.mem_cons.mp hr with rfl | hrt
      · cases hab : (r.id == rid) with
        | true =>
            rw [hab] at hf
            injection hf with hf
        | false => simp [hrid] at hab
      · cases hab : (a.id == rid) with
        | true =>
            exfalso
            have ha : a.id = rid := by simpa using hab
            have : a.id ∈ t.map (fun r => r.id) := by
              rw [ha, ← hrid]
              exact List.mem_map_of_mem _ hrt
            exact (List.nodup_cons.mp hnd).1 this
        | false =>
            rw [hab] at hf
            exact ih (List.nodup_cons.mp hnd).2 hf r hrt hrid

/-- Helper: `WF` only looks at rooms, ledger and the room id counter, all
untouched by a system-message append. -/
theorem wf_csm (db : DB) (r : Nat) (c : String) (kv : Option Nat)
    (h : WF db) : WF (create_system_message db r c kv) := by
  obtain ⟨h1, h2, h3, h4⟩ := h
  refine ⟨?_, ?_, ?_, ?_⟩
  · rw [csm_rooms]; exact h1
  · rw [csm_rooms, csm_next_room_id]; exact h2
  · rw [csm_rooms, csm_sym_keys]; exact h3
  · intro k hk r2 hr2 hkr
    rw [csm_sym_keys] at hk
    rw [csm_rooms] at hr2
    exact h4 k hk r2 hr2 hkr

/-- Helper: creating a room at version 1, with a ledger whose rows are
either pre-existing or version-1 rows of the fresh id, preserves `WF`. -/
theorem wf_add_room (db : DB) (newRoom : Room) (ks2 : List SymmetricKey)
    (hid : newRoom.id = db.next_room_id)
    (hver : newRoom.current_key_version = 1)
    (hks : ∀ k ∈ ks2, k ∈ db.sym_keys ∨
      (k.room_id = newRoom.id ∧ k.key_version = 1))
    (h : WF db) :
    WF { db with rooms := db.rooms ++ [newRoom],
                 sym_keys := ks2,
                 next_room_id := db.next_room_id + 1 } := by
  obtain ⟨h1, h2, h3, h4⟩ := h
  refine ⟨?_, ?_, ?_, ?_⟩
  · dsimp only
    rw [List.map_append]
    rw [List.nodup_append]
    refine ⟨h1, List.nodup_singleton _, ?_⟩
    intro x hx hx2
    simp only [List.map_cons, List.map_nil, List.mem_singleton] at hx2
    obtain ⟨r0, hr0, rfl⟩ := List.mem_map.mp hx
    have := h2 r0 hr0
    omega
  · intro r hr
    dsimp only at hr ⊢
    rcases List.mem_append.mp hr with hro | hrn
    · have := h2 r hro
      omega
    · have hrn2 : r = newRoom := by simpa using hrn
      subst hrn2
      omega
  · intro k hk
    dsimp only at hk ⊢
    rcases hks k hk with hko | hkn
    · obtain ⟨r0, hr0, hel⟩ := h3 k hko
      exact ⟨r0, List.mem_append_left _ hr0, hel⟩
    · exact ⟨newRoom, List.mem_append_right _ (List.mem_singleton_self _),
        hkn.1.symm⟩
  · intro k hk r hr hkr
    dsimp only at hk hr
    rcases hks k hk with hko | hkn
    · rcases List.mem_append.mp hr with hro | hrn
      · exact h4 k hko r hro hkr
      · exfalso
        have hrn2 : r = newRoom := by simpa using hrn
        obtain ⟨r0, hr0, hel⟩ := h3 k hko
        have hlt := h2 r0 hr0
        rw [hel] at hlt
        rw [hkr, hrn2, hid] at hlt
        omega
    · rcases List.mem_append.mp hr with hro | hrn
      · exfalso
        have hlt := h2 r hro
        rw [← hkr, hkn.1, hid] at hlt
        omega
      · have hrn2 : r = newRoom := by simpa using hrn
        subst hrn2
        rw [hver, hkn.2]
        omega

/-- Helper: a key-version bump installing rows exactly at the bumped
version preserves `WF`. -/
theorem wf_bump (db : DB) (rid : Nat) (room : Room) (g : Room → Room)
    (hroom : db.rooms.find? (fun r => r.id == rid) = some room)
    (hg_id : ∀ r, (g r).id = r.id)
    (hg_ver : ∀ r, (g r).current_key_version = room.current_key_version + 1)
    (ks : List SymmetricKey)
    (hks : ∀ k ∈ ks, k.room_id = rid ∧
      k.key_version = room.current_key_version + 1)
    (h : WF db) :
    WF { db with
      rooms := db.rooms.map (fun r => if r.id == rid then g r else r),
      sym_keys := revokeKeys db.sym_keys rid room.current_key_version db.now
        ++ ks } := by
  obtain ⟨h1, h2, h3, h4⟩ := h
  have hF : ∀ r : Room, (if r.id == rid then g r else r).id = r.id := by
    intro r
    split
    · exact hg_id r
    · rfl
  have hroomid : room.id = rid := by
    have h0 := List.find?_some hroom
    simpa using h0
  have hroommem : room ∈ db.rooms := List.mem_of_find?_eq_some hroom
  refine ⟨?_, ?_, ?_, ?_⟩
  · dsimp only
    rw [map_ids_eq _ _ hF]
    exact h1
  · intro r hr
    dsimp only at hr ⊢
    obtain ⟨r0, hr0, rfl⟩ := List.mem_map.mp hr
    rw [hF r0]
    exact h2 r0 hr0
  · intro k hk
    dsimp only at hk ⊢
    rcases List.mem_append.mp hk with hko | hkn
    · obtain ⟨k0, hk0, hkeq, _⟩ := revokeKeys_id_ver db.sym_keys rid
        room.current_key_version db.now k hko
      obtain ⟨r0, hr0, hel⟩ := h3 k0 hk0
      refine ⟨if r0.id == rid then g r0 else r0,
        List.mem_map_of_mem _ hr0, ?_⟩
      rw [hF r0, hel, hkeq]
    · refine ⟨if room.id == rid then g room else room,
        List.mem_map_of_mem _ hroommem, ?_⟩
      rw [hF room, hroomid, (hks k hkn).1]
  · intro k hk r hr hkr
    dsimp only at hk hr
    obtain ⟨r0, hr0, rfl⟩ := List.mem_map.mp hr
    rcases List.mem_append.mp hk with hko | hkn
    · obtain ⟨k0, hk0, hkeq, hveq⟩ := revokeKeys_id_ver db.sym_keys rid
        room.current_key_version db.now k hko
      have hkr0 : k0.room_id = r0.id := by rw [← hkeq, hkr, hF r0]
      have hb := h4 k0 hk0 r0 hr0 hkr0
      constructor
      · rw [hveq]
        exact hb.1
      · rw [hveq]
        by_cases hc : (r0.id == rid) = true
        · rw [if_pos hc, hg_ver r0]
          have he : r0 = room := find?_unique_by_id db.rooms rid h1 room hroom
            r0 hr0 (by simpa using hc)
          have hle := hb.2
          rw [he] at hle
          omega
        · rw [if_neg hc]
          exact hb.2
    · constructor
      · rw [(hks k hkn).2]
        omega
      · by_cases hc : (r0.id == rid) = true
        · rw [if_pos hc, hg_ver r0, (hks k hkn).2]
        · exfalso
          rw [if_neg hc] at hkr
          have hr0id : r0.id = rid := by
            rw [← hkr]
            exact (hks k hkn).1
          exact hc (by simp [hr0id])

/-- Helper: deleting a room that has no ledger rows (with its messages)
preserves `WF`. -/
theorem wf_delete_room (db : DB) (rid : Nat)
    (hkeys : db.sym_keys.any (fun k => k.room_id == rid) = false)
    (h : WF db) :
    WF { db with rooms := db.rooms.filter (fun r => !(r.id == rid)),
                 messages := db.messages.filter (fun m => !(m.room_id == rid)) } := by
  obtain ⟨h1, h2, h3, h4⟩ := h
  have hnok : ∀ k ∈ db.sym_keys, (k.room_id == rid) = false := by
    intro k hk
    have h0 := List.any_eq_false.mp hkeys k hk
    simpa using h0
  refine ⟨?_, ?_, ?_, ?_⟩
  · dsimp only
    exact List.Nodup.sublist (List.Sublist.map _ (List.filter_sublist _)) h1
  · intro r hr
    exact h2 r (List.mem_of_mem_filter hr)
  · intro k hk
    obtain ⟨r0, hr0, hel⟩ := h3 k hk
    have hne : k.room_id ≠ rid := by simpa using hnok k hk
    refine ⟨r0, List.mem_filter.mpr ⟨hr0, ?_⟩, hel⟩
    simp [hel, hne]
  · intro k hk r hr hkr
    exact h4 k hk r (List.mem_of_mem_filter hr) hkr

/-- Helper: the non-emptying leave's membership update plus leaver-row
purge preserves `WF` (versions untouched, rows only removed). -/
theorem wf_leave_update (db : DB) (rid uid : Nat) (parts2 : List Nat)
    (h : WF db) :
    WF { db with
      rooms := db.rooms.map (fun r =>
        if r.id == rid then
          { r with participants := parts2, rotation_pending := true }
        else r),
      sym_keys := db.sym_keys.filter (fun k =>
        !(k.room_id == rid && k.user_id == uid)) } := by
  obtain ⟨h1, h2, h3, h4⟩ := h
  have hF : ∀ r : Room, ((if r.id == rid then
      { r with participants := parts2, rotation_pending := true }
    else r) : Room).id = r.id := by
    intro r
    split <;> rfl
  have hFv : ∀ r : Room, ((if r.id == rid then
      { r with participants := parts2, rotation_pending := true }
    else r) : Room).current_key_version = r.current_key_version := by
    intro r
    split <;> rfl
  refine ⟨?_, ?_, ?_, ?_⟩
  · dsimp only
    rw [map_ids_eq _ _ hF]
    exact h1
  · intro r hr
    dsimp only at hr ⊢
    obtain ⟨r0, hr0, rfl⟩ := List.mem_map.mp hr
    rw [hF r0]
    exact h2 r0 hr0
  · intro k hk
    dsimp only at hk ⊢
    have hk0 := List.mem_of_mem_filter hk
    obtain ⟨r0, hr0, hel⟩ := h3 k hk0
    refine ⟨_, List.mem_map_of_mem _ hr0, ?_⟩
    rw [hF r0]
    exact hel
  · intro k hk r hr hkr
    dsimp only at hk hr
    have hk0 := List.mem_of_mem_filter hk
    obtain ⟨r0, hr0, rfl⟩ := List.mem_map.mp hr
    have hkr0 : k.room_id = r0.id := by rw [hkr, hF r0]
    have hb := h4 k hk0 r0 hr0 hkr0
    rw [hFv r0]
    exact hb

/-- Helper: `create_room` preserves `WF` on every input (including its
rollback branches). -/
theorem wf_handle_create (st : ServerState) (sid : String) (d : CreateRoomReq)
    (h : WF st.db) : WF (handle_create_room st sid d).1.db := by
  unfold handle_create_room
  split
  · exact h
  · split
    · exact h
    · dsimp only
      split
      · exact h
      · split
        · dsimp only
          refine wf_add_room st.db _ st.db.sym_keys ?_ ?_
            (fun k hk => Or.inl hk) h <;> rfl
        · dsimp only
          refine wf_add_room st.db _ _ ?_ ?_ ?_ h
          · rfl
          · rfl
          · intro k hk
            rcases List.mem_append.mp hk with hko | hkn
            · exact Or.inl hko
            · exact Or.inr (validWraps_facts _ _ _ _ k hkn)

/-- Helper: `invite_to_room` preserves `WF` on every input. -/
theorem wf_handle_invite (st : ServerState) (sid : String) (d : InviteReq)
    (h : WF st.db) : WF (handle_invite_to_room st sid d).1.db := by
  unfold handle_invite_to_room
  split
  · exact h
  · split
    · exact h
    · dsimp only
      split
      · exact h
      · rename_i cu x room hr
        split
        · exact h
        · split
          · exact h
          · split
            · exact h
            · dsimp only
              refine wf_csm _ _ _ _
                (wf_bump st.db (d.room_id.getD 0) room _ hr ?_ ?_ _
                  (validWraps_facts _ _ _ _) h)
              · intro r
                rfl
              · intro r
                rfl

/-- Helper: `rotate_room_key` preserves `WF` on every input. -/
theorem wf_handle_rotate (st : ServerState) (sid : String) (d : RotateReq)
    (h : WF st.db) : WF (handle_rotate_room_key st sid d).1.db := by
  unfold handle_rotate_room_key
  split
  · exact h
  · split
    · exact h
    · split
      · exact h
      · dsimp only
        split
        · exact h
        · rename_i cu x1 x2 room hr
          split
          · exact h
          · split
            · exact h
            · split
              · exact h
              · split
                · exact h
                · dsimp only
                  refine wf_bump st.db (d.room_id.getD 0) room _ hr ?_ ?_ _
                    (rotWraps_facts _ _ _) h
                  · intro r
                    rfl
                  · intro r
                    rfl

/-- Helper: `leave_room` preserves `WF` on every input (including the
failing sole-participant delete). -/
theorem wf_handle_leave (st : ServerState) (sid : String) (d : LeaveReq)
    (h : WF st.db) : WF (handle_leave_room st sid d).1.db := by
  unfold handle_leave_room
  split
  · exact h
  · split
    · exact h
    · dsimp only
      split
      · exact h
      · rename_i cu x room hr
        split
        · exact h
        · split
          · split
            · exact h
            · rename_i hempty hnokeys
              have hkeys : st.db.sym_keys.any
                  (fun k => k.room_id == d.room_id.getD 0) = false := by
                cases hx : st.db.sym_keys.any
                    (fun k => k.room_id == d.room_id.getD 0) with
                | true => exact absurd hx hnokeys
                | false => rfl
              exact wf_delete_room st.db (d.room_id.getD 0) hkeys h
          · dsimp only
            exact wf_csm _ _ _ _ (wf_leave_update st.db _ _ _ h)

/-- Helper: one lifecycle operation preserves `WF`. -/
theorem wf_applyOp (st : ServerState) (op : Op) (h : WF st.db) :
    WF (applyOp st op).db := by
  cases op with
  | create sid d => exact wf_handle_create st sid d h
  | invite sid d => exact wf_handle_invite st sid d h
  | leave sid d => exact wf_handle_leave st sid d h
  | rotate sid d => exact wf_handle_rotate st sid d h

/-- Helper: any sequence of lifecycle operations preserves `WF`. -/
theorem wf_applyOps (ops : List Op) (st : ServerState) (h : WF st.db) :
    WF (applyOps ops st).db := by
  induction ops generalizing st with
  | nil => exact h
  | cons op rest ih => exact ih (applyOp st op) (wf_applyOp st op h)

/-- C3, amended:  After any sequence of `create_room`,
`invite_to_room`, `leave_room` and `rotate_room_key` operations from a
well-formed state, every ledger row's `key_version` lies in
`{1, …, current_key_version}` of its room — the version set is a *subset*
of the contiguous range.  (It need not equal the range: the counterexample
creates a room whose ledger is empty at version 1, and invites may install
fewer wraps than participants.) -/
theorem c3_ledger_versions_within_range (st : ServerState) (hwf : WF st.db)
    (ops : List Op) :
    ∀ r ∈ (applyOps ops st).db.rooms, ∀ k ∈ (applyOps ops st).db.sym_keys,
      k.room_id = r.id →
      k.key_version ∈ Finset.Icc 1 r.current_key_version := by
  intro r hr k hk hkr
  have h4 := (wf_applyOps ops st hwf).2.2.2
  have hb := h4 k hk r hr hkr
  exact Finset.mem_Icc.mpr hb

/-- C3, amended, witness:  A create that installs alice's own wrap:
the concrete version-1 row lies in `{1}` of the created room. -/
theorem c3_ledger_versions_within_range_witness :
    (skey 1 1 1 "A1").key_version ∈ Finset.Icc 1
      ({ id := 1, name := some "r", is_group := false,
         current_key_version := 1, rotation_pending := false,
         participants := [1] } : Room).current_key_version :=
  c3_ledger_versions_within_range minSt
    (by unfold WF VersionsInRange; decide)
    [Op.create "a" { name := some "r", participant_ids := [],
                     is_group := none,
                     encrypted_keys :=
                       [{ user_id := some 1, encrypted_key := some "A1" }] }]
    { id := 1, name := some "r", is_group := false, current_key_version := 1,
      rotation_pending := false, participants := [1] }
    (by decide) (skey 1 1 1 "A1") (by decide) rfl
end Fama
